import Mathlib

/-!
Verification of the wiki-citation sync pipeline (wiki_sync.py).

Strings are modelled as lists of characters.  Python string operations are
embedded explicitly: `in` as contiguous-substring containment, `.lower()` as
character-wise lowering, `.strip()` as dropping leading and trailing
whitespace, slicing `[:n]` as `List.take n`.  Regular expressions are embedded
as explicit character-level scanners that reproduce the greedy/lazy matching
behaviour of the concrete patterns used in the source.  Network fetches are
modelled as an `Except` value supplied by the caller.
-/

namespace WikiSync

/-- Characters matched by the regex class backslash-s (Python whitespace). -/
def isPySpace (c : Char) : Bool :=
  c = ' ' || c = '\t' || c = '\n' || c = '\r' || c = '\x0b' || c = '\x0c'

/-- Characters matched by the regex class backslash-w (ASCII word characters). -/
def isWordChar (c : Char) : Bool :=
  c.isAlpha || c.isDigit || c = '_'

/-- Case-insensitive comparison of a character against a lowercase target,
mirroring the IGNORECASE regex flag. -/
def lowEq (c target : Char) : Bool := c.toLower = target

/-- Convert a string literal to the character-list model. -/
def toChars (s : String) : List Char := s.data

/-- Python str.lower restricted to the character-wise case mapping. -/
def lower (s : List Char) : List Char := s.map Char.toLower

/-- Python str.strip: drop leading and trailing whitespace. -/
def strip (s : List Char) : List Char :=
  ((s.dropWhile isPySpace).reverse.dropWhile isPySpace).reverse

/-- Python substring test: `needle in hay` for contiguous substrings. -/
def containsSub (needle : List Char) : List Char → Bool
  | [] => needle.isEmpty
  | c :: rest => needle.isPrefixOf (c :: rest) || containsSub needle rest

/-- Syntactic kind of an extracted citation (the 'type' key of the
citation dictionaries built by extract_citations_from_wiki). -/
inductive CitKind where
  | ref_tag
  | cite_template
  | external_link
deriving DecidableEq

/-- Printable name of a citation kind, as interpolated into the extra field. -/
def kindName : CitKind → List Char
  | .ref_tag => toChars "ref_tag"
  | .cite_template => toChars "cite_template"
  | .external_link => toChars "external_link"

/-- One citation dictionary produced by extract_citations_from_wiki. -/
structure Citation where
  ctype : CitKind
  content : List Char
  source_url : List Char
deriving DecidableEq

/-- The data dictionary of a stored Zotero item, restricted to the fields
read by citation_exists_in_zotero; a missing key is `none`. -/
structure ItemData where
  title : Option (List Char) := none
  abstractNote : Option (List Char) := none
  extra : Option (List Char) := none
deriving DecidableEq

/-- A stored Zotero item; `data` is absent when the 'data' key is missing. -/
structure ZoteroItem where
  data : Option ItemData := none
deriving DecidableEq

/-- Python `item.get('data', \x7b\x7d)`. -/
def ZoteroItem.getData (it : ZoteroItem) : ItemData :=
  it.data.getD {}

/-- citation_exists_in_zotero: fuzzy containment check of a candidate
citation against the stored items, field by field (title and abstractNote
bidirectionally, extra one-directionally), short-circuiting on the first
match. -/
def citation_exists_in_zotero (citation : Citation) (zotero_items : List ZoteroItem) : Bool :=
  let citation_text := lower citation.content
  zotero_items.any fun item =>
    let item_data := item.getData
    let title := lower (item_data.title.getD [])
    let abstract := lower (item_data.abstractNote.getD [])
    let extra := lower (item_data.extra.getD [])
    (!title.isEmpty && (containsSub citation_text title || containsSub title citation_text))
    || (!abstract.isEmpty && (containsSub citation_text abstract || containsSub abstract citation_text))
    || (!extra.isEmpty && containsSub citation_text extra)

/-- One creator entry of a parsed template or canonical record. -/
structure Creator where
  creatorType : List Char
  name : List Char
deriving DecidableEq

/-- The dictionary built by parse_cite_template: canonical Zotero field
names mapped to stripped string values; a key never assigned is `none`. -/
structure TemplateData where
  title : Option (List Char) := none
  creators : Option (List Creator) := none
  date : Option (List Char) := none
  publicationTitle : Option (List Char) := none
  volume : Option (List Char) := none
  issue : Option (List Char) := none
  pages : Option (List Char) := none
  DOI : Option (List Char) := none
  url : Option (List Char) := none
  publisher : Option (List Char) := none
  ISBN : Option (List Char) := none
deriving DecidableEq

/-- Removal of the leading template marker, embedding the substitution of
the anchored pattern open-brace open-brace cite, whitespace+, word+,
whitespace*, optional bar (IGNORECASE); when the pattern does not match the
input is returned unchanged. -/
def stripCiteHead (s : List Char) : List Char :=
  match s with
  | '\x7b' :: '\x7b' :: c1 :: c2 :: c3 :: c4 :: rest =>
    if lowEq c1 'c' && lowEq c2 'i' && lowEq c3 't' && lowEq c4 'e' then
      if (rest.takeWhile isPySpace).isEmpty then s
      else
        let r2 := rest.dropWhile isPySpace
        if (r2.takeWhile isWordChar).isEmpty then s
        else
          let r3 := r2.dropWhile isWordChar
          let r4 := r3.dropWhile isPySpace
          match r4 with
          | '|' :: r5 => r5
          | _ => r4
    else s
  | _ => s

/-- Removal of the trailing close-brace close-brace, embedding the
substitution of the end-anchored closer pattern. -/
def stripTrailBraces (s : List Char) : List Char :=
  match s.reverse with
  | '\x7d' :: '\x7d' :: _ => s.dropLast.dropLast
  | _ => s

/-- The depth-tracking split loop of parse_cite_template: accumulate
characters, raising the count on an open brace and lowering it on a close
brace, splitting on a bar only when the count is zero; the final segment is
kept only when non-blank. -/
def splitLoop : List Char → List Char → Int → List (List Char)
  | [], cur, _ => if (strip cur).isEmpty then [] else [strip cur]
  | c :: rest, cur, d =>
    if c = '\x7b' then splitLoop rest (cur ++ [c]) (d + 1)
    else if c = '\x7d' then splitLoop rest (cur ++ [c]) (d - 1)
    else if c = '|' ∧ d = 0 then strip cur :: splitLoop rest [] d
    else splitLoop rest (cur ++ [c]) d

/-- Split a template body into field segments at depth zero. -/
def splitParts (content : List Char) : List (List Char) :=
  splitLoop content [] 0

/-- Process one field segment: split once on the first equals sign, strip
and lower-case the key, strip the value, and assign through the fixed
field-mapping table (author specially producing a creators list); segments
without an equals sign and unmapped keys leave the data unchanged. -/
def applyField (d : TemplateData) (part : List Char) : TemplateData :=
  if part.contains '=' then
    let key := lower (strip (part.takeWhile (fun c => c ≠ '=')))
    let value := strip ((part.dropWhile (fun c => c ≠ '=')).drop 1)
    if key = toChars "title" then { d with title := some value }
    else if key = toChars "author" then
      { d with creators := some [⟨toChars "author", value⟩] }
    else if key = toChars "year" then { d with date := some value }
    else if key = toChars "journal" then { d with publicationTitle := some value }
    else if key = toChars "volume" then { d with volume := some value }
    else if key = toChars "issue" then { d with issue := some value }
    else if key = toChars "pages" then { d with pages := some value }
    else if key = toChars "doi" then { d with DOI := some value }
    else if key = toChars "url" then { d with url := some value }
    else if key = toChars "publisher" then { d with publisher := some value }
    else if key = toChars "isbn" then { d with ISBN := some value }
    else d
  else d

/-- parse_cite_template: strip the outer markers, split the body on bars at
nesting depth zero, and fold the field segments into structured data. -/
def parse_cite_template (cite_template : List Char) : TemplateData :=
  (splitParts (stripTrailBraces (stripCiteHead cite_template))).foldl applyField {}

/-- Recognize the closing ref tag (IGNORECASE) at the head of the input,
returning the remainder after it. -/
def isCloseRef : List Char → Option (List Char)
  | '<' :: '/' :: r :: e :: f :: '>' :: rest =>
    if lowEq r 'r' && lowEq e 'e' && lowEq f 'f' then some rest else none
  | _ => none

/-- Lazy scan of the ref-tag content group: the shortest span up to the
first closing ref tag, returning the content and the remainder after the
closer; `none` when no closer occurs. -/
def splitAtCloseRef : List Char → Option (List Char × List Char)
  | [] => none
  | c :: rest =>
    match isCloseRef (c :: rest) with
    | some after => some ([], after)
    | none =>
      match splitAtCloseRef rest with
      | some (pre, after) => some (c :: pre, after)
      | none => none

/-- Attempt to match the ref-tag pattern at the head of the input: an
opening ref tag (IGNORECASE, arbitrary attribute characters up to the first
greater-than), then the lazily matched content group up to the first closing
ref tag; returns the content group and the remainder after the match. -/
def matchRefAt : List Char → Option (List Char × List Char)
  | '<' :: r :: e :: f :: rest =>
    if lowEq r 'r' && lowEq e 'e' && lowEq f 'f' then
      match rest.dropWhile (fun c => c ≠ '>') with
      | '>' :: body => splitAtCloseRef body
      | _ => none
    else none
  | _ => none

/-- The findall scan for the ref-tag pattern: try a match at every
position, emitting each match group and resuming after the matched span.
The fuel argument bounds the recursion; one unit more than the input length
always suffices since every step consumes at least one character. -/
def scanRefs : Nat → List Char → List (List Char)
  | 0, _ => []
  | _ + 1, [] => []
  | fuel + 1, c :: rest =>
    match matchRefAt (c :: rest) with
    | some (g, after) => g :: scanRefs fuel after
    | none => scanRefs fuel rest

/-- The tag-removal substitution applied to ref-tag content: delete every
span consisting of a less-than, one or more characters other than
greater-than, and a greater-than; scanning left to right. -/
def stripTags : Nat → List Char → List Char
  | 0, s => s
  | _ + 1, [] => []
  | fuel + 1, c :: rest =>
    if c = '<' then
      if (rest.takeWhile (fun x => x ≠ '>')).isEmpty then c :: stripTags fuel rest
      else
        match rest.dropWhile (fun x => x ≠ '>') with
        | '>' :: after => stripTags fuel after
        | _ => c :: stripTags fuel rest
    else c :: stripTags fuel rest

/-- Attempt to match the cite-template pattern at the head of the input:
open-brace open-brace cite (IGNORECASE), whitespace+, one or more further
characters other than close-brace, then close-brace close-brace.  The run
of non-close-brace characters is maximal, so the match ends at the first
pair of closing braces regardless of nesting depth.  Returns the matched
span and the remainder after it. -/
def matchCiteAt : List Char → Option (List Char × List Char)
  | '\x7b' :: '\x7b' :: c1 :: c2 :: c3 :: c4 :: rest =>
    if lowEq c1 'c' && lowEq c2 'i' && lowEq c3 't' && lowEq c4 'e' then
      match rest.takeWhile (fun x => x ≠ '\x7d') with
      | [] => none
      | w :: rs =>
        if isPySpace w && !rs.isEmpty then
          match rest.dropWhile (fun x => x ≠ '\x7d') with
          | '\x7d' :: '\x7d' :: after =>
            some ('\x7b' :: '\x7b' :: c1 :: c2 :: c3 :: c4 ::
                  ((w :: rs) ++ ['\x7d', '\x7d']), after)
          | _ => none
        else none
    else none
  | _ => none

/-- The findall scan for the cite-template pattern. -/
def scanCites : Nat → List Char → List (List Char)
  | 0, _ => []
  | _ + 1, [] => []
  | fuel + 1, c :: rest =>
    match matchCiteAt (c :: rest) with
    | some (m, after) => m :: scanCites fuel after
    | none => scanCites fuel rest

/-- Recognize the scheme part of the external-link pattern after the
leading http: an optional s followed by the colon-slash-slash separator. -/
def matchScheme : List Char → Option (List Char)
  | 's' :: ':' :: '/' :: '/' :: r => some r
  | ':' :: '/' :: '/' :: r => some r
  | _ => none

/-- Attempt to match the external-link pattern at the head of the input: an
opening square bracket, an http or https URL run (one or more characters
that are neither whitespace nor a closing bracket), whitespace+, a label
group (one or more characters other than a closing bracket), and the
closing bracket.  The whitespace run backtracks by one character when the
label group would otherwise be empty, matching the greedy semantics of the
concrete pattern.  Returns the label group and the remainder after the
match. -/
def matchLinkAt : List Char → Option (List Char × List Char)
  | '[' :: 'h' :: 't' :: 't' :: 'p' :: rest =>
    match matchScheme rest with
    | none => none
    | some r =>
      if (r.takeWhile (fun c => !isPySpace c && c ≠ ']')).isEmpty then none
      else
        match r.dropWhile (fun c => !isPySpace c && c ≠ ']') with
        | [] => none
        | d :: after2 =>
          if isPySpace d then
            let between := (d :: after2).takeWhile (fun c => c ≠ ']')
            match (d :: after2).dropWhile (fun c => c ≠ ']') with
            | ']' :: afterMatch =>
              let ws := between.takeWhile isPySpace
              let label := between.drop ws.length
              if label.isEmpty then
                if 2 ≤ between.length then
                  some (between.drop (between.length - 1), afterMatch)
                else none
              else some (label, afterMatch)
            | _ => none
          else none
  | _ => none

/-- The findall scan for the external-link pattern. -/
def scanLinks : Nat → List Char → List (List Char)
  | 0, _ => []
  | _ + 1, [] => []
  | fuel + 1, c :: rest =>
    match matchLinkAt (c :: rest) with
    | some (g, after) => g :: scanLinks fuel after
    | none => scanLinks fuel rest

/-- extract_citations_from_wiki: given the outcome of fetching the page
(failure models an unreachable page or non-success response, which raises
inside the guarded block), produce the citation list: cleaned ref-tag
contents longer than ten characters, verbatim cite-template spans, and
external-link labels longer than five characters; any failure yields the
empty list. -/
def extract_citations_from_wiki
    (fetched : Except (List Char) (List Char)) (wiki_url : List Char) : List Citation :=
  match fetched with
  | .error _ => []
  | .ok content =>
    let refCits := (scanRefs (content.length + 1) content).filterMap fun m =>
      let clean_ref := strip (stripTags (m.length + 1) m)
      if clean_ref ≠ [] ∧ clean_ref.length > 10 then
        some ⟨.ref_tag, clean_ref, wiki_url⟩
      else none
    let citeCits := (scanCites (content.length + 1) content).map fun m =>
      (⟨.cite_template, strip m, wiki_url⟩ : Citation)
    let linkCits := (scanLinks (content.length + 1) content).filterMap fun m =>
      if (strip m).length > 5 then some ⟨.external_link, strip m, wiki_url⟩
      else none
    refCits ++ citeCits ++ linkCits

/-- Processing a list of pages: the citations of each fetched page,
concatenated in page order, as the main loop does. -/
def runExtract (wiki_url : List Char)
    (pages : List (Except (List Char) (List Char))) : List Citation :=
  (pages.map fun p => extract_citations_from_wiki p wiki_url).flatten

/-- The author-year heuristic of the ref-tag branch: the anchored search
for a non-empty run of characters other than an opening parenthesis,
followed by an opening parenthesis, four digits and a closing parenthesis;
returns the name group (unstripped) and the four-digit year. -/
def matchAuthorYear (content : List Char) : Option (List Char × List Char) :=
  match content.takeWhile (fun c => c ≠ '(') with
  | [] => none
  | p :: pre =>
    match content.dropWhile (fun c => c ≠ '(') with
    | '(' :: d1 :: d2 :: d3 :: d4 :: ')' :: _ =>
      if d1.isDigit && d2.isDigit && d3.isDigit && d4.isDigit then
        some (p :: pre, [d1, d2, d3, d4])
      else none
    | _ => none

/-- The canonical Zotero item dictionary built by
create_zotero_item_from_citation; optional fields model keys absent from
the base dictionary. -/
structure ZItem where
  itemType : List Char
  title : List Char
  creators : List Creator
  tags : List (List Char)
  extra : List Char
  date : Option (List Char) := none
  publicationTitle : Option (List Char) := none
  volume : Option (List Char) := none
  issue : Option (List Char) := none
  pages : Option (List Char) := none
  DOI : Option (List Char) := none
  url : Option (List Char) := none
  publisher : Option (List Char) := none
  ISBN : Option (List Char) := none
deriving DecidableEq

/-- Dictionary-update semantics for one optional field: a key present in
the parsed data overwrites the base value, an absent key leaves it. -/
def dictUpd (parsed base : Option (List Char)) : Option (List Char) :=
  match parsed with
  | some v => some v
  | none => base

/-- The base item dictionary of create_zotero_item_from_citation. -/
def baseItem (citation : Citation) : ZItem :=
  { itemType := toChars "webpage"
    title := []
    creators := []
    tags := [toChars "source:wikiversity"]
    extra := toChars "Cited on: " ++ citation.source_url
              ++ toChars "\nExtracted from: " ++ kindName citation.ctype }

/-- The type-specific part of create_zotero_item_from_citation, before the
final empty-title check. -/
def canonicalizeByKind (citation : Citation) : ZItem :=
  let base := baseItem citation
  match citation.ctype with
    | .cite_template =>
      let parsed := parse_cite_template citation.content
      let merged : ZItem :=
        { base with
          title := parsed.title.getD base.title
          creators := parsed.creators.getD base.creators
          date := dictUpd parsed.date base.date
          publicationTitle := dictUpd parsed.publicationTitle base.publicationTitle
          volume := dictUpd parsed.volume base.volume
          issue := dictUpd parsed.issue base.issue
          pages := dictUpd parsed.pages base.pages
          DOI := dictUpd parsed.DOI base.DOI
          url := dictUpd parsed.url base.url
          publisher := dictUpd parsed.publisher base.publisher
          ISBN := dictUpd parsed.ISBN base.ISBN }
      let typed : ZItem :=
        if parsed.publicationTitle.isSome then
          { merged with itemType := toChars "journalArticle" }
        else if parsed.publisher.isSome then
          { merged with itemType := toChars "book" }
        else merged
      if typed.title.isEmpty then
        { typed with title := citation.content.take 200 }
      else typed
    | .ref_tag =>
      let withAuthor : ZItem :=
        match matchAuthorYear citation.content with
        | some (nameGroup, year) =>
          { base with creators := [⟨toChars "author", strip nameGroup⟩]
                      date := some year }
        | none => base
      { withAuthor with
        title := citation.content.take 200
                  ++ (if citation.content.length > 200 then toChars "..." else []) }
    | .external_link =>
      { base with title := citation.content, itemType := toChars "webpage" }

/-- The final block of create_zotero_item_from_citation: when the title is
still empty after type-specific handling, fall back to the first hundred
characters of the citation text, ellipsis-suffixed if truncated. -/
def finalTitleCheck (citation : Citation) (item : ZItem) : ZItem :=
  if item.title.isEmpty then
    { item with title := citation.content.take 100
                  ++ (if citation.content.length > 100 then toChars "..." else []) }
  else item

/-- create_zotero_item_from_citation: type-specific canonicalization of one
citation into a Zotero item, with the final fallback guaranteeing a
non-empty title. -/
def create_zotero_item_from_citation (citation : Citation) : ZItem :=
  finalTitleCheck citation (canonicalizeByKind citation)

/-- A stored item carrying only a title. -/
def titleOnly (t : List Char) : ZoteroItem := ⟨some { title := some t }⟩

/-- A stored item carrying only an extra field. -/
def extraOnly (e : List Char) : ZoteroItem := ⟨some { extra := some e }⟩

/-- The title a stored item presents to the matcher. -/
def storedTitle (it : ZoteroItem) : List Char := it.getData.title.getD []

/-- The abstract a stored item presents to the matcher. -/
def storedAbstract (it : ZoteroItem) : List Char := it.getData.abstractNote.getD []

/-- The extra text a stored item presents to the matcher. -/
def storedExtra (it : ZoteroItem) : List Char := it.getData.extra.getD []

/-- The template of the round-trip property. -/
def tplC5 : List Char :=
  toChars "\x7b\x7bcite journal|title=Foo|author=Jane Doe|year=2020|journal=Nature\x7d\x7d"

/-- A cite template longer than two hundred characters with no title field. -/
def tplLong : List Char :=
  toChars "\x7b\x7bcite web|" ++ List.replicate 200 'a' ++ toChars "\x7d\x7d"

/-- A cite template containing a nested balanced template span. -/
def nestedTpl : List Char :=
  toChars "\x7b\x7bcite web|title=\x7b\x7bn\x7d\x7d|x\x7d\x7d"

/-- The span the scanner actually yields for nestedTpl. -/
def truncatedTpl : List Char :=
  toChars "\x7b\x7bcite web|title=\x7b\x7bn\x7d\x7d"

/-- A cite template whose journal key carries an empty value. -/
def tplEmptyVenue : List Char :=
  toChars "\x7b\x7bcite journal|journal=|title=T\x7d\x7d"

/-- A page body holding one ref tag. -/
def refDoc : List Char := toChars "<ref>twelve chars ok</ref>"

/-! Helper lemmas. -/

/-- A member on which the predicate fails survives dropWhile. -/
theorem mem_dropWhile_of_not {α : Type} {p : α → Bool} {c : α} {s : List α}
    (hc : c ∈ s) (hnp : p c = false) : c ∈ s.dropWhile p := by
  induction s with
  | nil => cases hc
  | cons a t ih =>
    rw [List.dropWhile_cons]
    by_cases hpa : p a = true
    · rw [if_pos hpa]
      rcases List.mem_cons.mp hc with h | h
      · subst h; rw [hnp] at hpa; cases hpa
      · exact ih h
    · rw [if_neg hpa]
      exact hc

/-- Stripping a list containing a non-whitespace character is non-empty. -/
theorem strip_ne_nil {s : List Char} {c : Char} (hc : c ∈ s)
    (hns : isPySpace c = false) : strip s ≠ [] := by
  intro h
  unfold strip at h
  rw [List.reverse_eq_nil_iff, List.dropWhile_eq_nil_iff] at h
  have h1 : c ∈ s.dropWhile isPySpace := mem_dropWhile_of_not hc hns
  have h2 := h c (List.mem_reverse.mpr h1)
  rw [hns] at h2
  cases h2

/-- One step of the split loop on an opening brace. -/
theorem splitLoop_obr (rest cur : List Char) (d : Int) :
    splitLoop ('\x7b' :: rest) cur d = splitLoop rest (cur ++ ['\x7b']) (d + 1) := by
  simp [splitLoop]

/-- One step of the split loop on a closing brace. -/
theorem splitLoop_cbr (rest cur : List Char) (d : Int) :
    splitLoop ('\x7d' :: rest) cur d = splitLoop rest (cur ++ ['\x7d']) (d - 1) := by
  simp [splitLoop]

/-- One step of the split loop on a character that triggers no branch. -/
theorem splitLoop_cons_plain {c : Char} (rest cur : List Char) (d : Int)
    (h1 : c ≠ '\x7b') (h2 : c ≠ '\x7d') (h3 : ¬(c = '|' ∧ d = 0)) :
    splitLoop (c :: rest) cur d = splitLoop rest (cur ++ [c]) d := by
  simp only [splitLoop]
  rw [if_neg h1, if_neg h2, if_neg h3]

/-- The split loop accumulates a brace-free, bar-free span unchanged. -/
theorem splitLoop_append_plain (s : List Char)
    (hs : ∀ c ∈ s, c ≠ '\x7b' ∧ c ≠ '\x7d' ∧ c ≠ '|') :
    ∀ (t cur : List Char) (d : Int), splitLoop (s ++ t) cur d = splitLoop t (cur ++ s) d := by
  induction s with
  | nil => intro t cur d; simp
  | cons a as ih =>
    intro t cur d
    obtain ⟨ha, has⟩ := List.forall_mem_cons.mp hs
    rw [List.cons_append,
        splitLoop_cons_plain _ _ _ ha.1 ha.2.1 (fun hc => ha.2.2 hc.1),
        ih has t (cur ++ [a]) d, List.append_assoc, List.singleton_append]

/-- At non-zero depth the split loop accumulates any brace-free span
unchanged, bars included. -/
theorem splitLoop_append_nested (s : List Char)
    (hs : ∀ c ∈ s, c ≠ '\x7b' ∧ c ≠ '\x7d') :
    ∀ (t cur : List Char) (d : Int), d ≠ 0 →
      splitLoop (s ++ t) cur d = splitLoop t (cur ++ s) d := by
  induction s with
  | nil => intro t cur d _; simp
  | cons a as ih =>
    intro t cur d hd
    obtain ⟨ha, has⟩ := List.forall_mem_cons.mp hs
    rw [List.cons_append,
        splitLoop_cons_plain _ _ _ ha.1 ha.2 (fun hc => hd hc.2),
        ih has t (cur ++ [a]) d hd, List.append_assoc, List.singleton_append]

/-- Every span produced by the cite-template matcher opens with the
template marker and contains no closing brace before its final two
characters. -/
theorem matchCiteAt_some {s m r : List Char} (h : matchCiteAt s = some (m, r)) :
    ∃ c1 c2 c3 c4 run, m = '\x7b' :: '\x7b' :: c1 :: c2 :: c3 :: c4 :: (run ++ ['\x7d', '\x7d'])
      ∧ (∀ x ∈ run, x ≠ '\x7d')
      ∧ lowEq c1 'c' = true ∧ lowEq c2 'i' = true ∧ lowEq c3 't' = true
      ∧ lowEq c4 'e' = true := by
  unfold matchCiteAt at h
  split at h
  case h_2 => cases h
  case h_1 c1 c2 c3 c4 rest =>
    split at h
    case isFalse => cases h
    case isTrue hci =>
      split at h
      case h_1 => cases h
      case h_2 w rs hw =>
        split at h
        case isFalse => cases h
        case isTrue hws =>
          split at h
          case h_2 => cases h
          case h_1 after heq =>
            rw [Option.some_inj] at h
            obtain ⟨hm, _⟩ := Prod.mk.injEq .. ▸ h
            refine ⟨c1, c2, c3, c4, w :: rs, ?_, ?_, ?_, ?_, ?_, ?_⟩
            · exact hm.symm ▸ rfl
            · intro x hx
              have hx' : x ∈ rest.takeWhile (fun y => y ≠ '\x7d') := hw ▸ hx
              have hx2 := List.mem_takeWhile_imp hx'
              simpa using hx2
            all_goals
              simp only [Bool.and_eq_true] at hci
              first
                | exact hci.1.1.1
                | exact hci.1.1.2
                | exact hci.1.2
                | exact hci.2

/-- Every span yielded by the cite-template findall scan has the matcher's
shape: the template marker, then a run without closing braces, then the
first pair of closing braces. -/
theorem scanCites_shape : ∀ (fuel : Nat) (s mm : List Char), mm ∈ scanCites fuel s →
    ∃ c1 c2 c3 c4 run,
      mm = '\x7b' :: '\x7b' :: c1 :: c2 :: c3 :: c4 :: (run ++ ['\x7d', '\x7d'])
      ∧ (∀ x ∈ run, x ≠ '\x7d')
      ∧ lowEq c1 'c' = true ∧ lowEq c2 'i' = true ∧ lowEq c3 't' = true
      ∧ lowEq c4 'e' = true := by
  intro fuel
  induction fuel with
  | zero => intro s mm h; cases h
  | succ n ih =>
    intro s mm h
    match s with
    | [] => cases h
    | c :: rest =>
      rw [scanCites] at h
      cases hmc : matchCiteAt (c :: rest) with
      | some pr =>
        obtain ⟨m', after⟩ := pr
        rw [hmc] at h
        rcases List.mem_cons.mp h with h1 | h1
        · exact h1 ▸ matchCiteAt_some hmc
        · exact ih after mm h1
      | none =>
        rw [hmc] at h
        exact ih rest mm h

/-- The final empty-title fallback never changes the item type. -/
theorem finalTitleCheck_itemType (citation : Citation) (item : ZItem) :
    (finalTitleCheck citation item).itemType = item.itemType := by
  by_cases h : item.title.isEmpty = true <;> simp [finalTitleCheck, h]

/-- The final empty-title fallback never changes the publicationTitle. -/
theorem finalTitleCheck_publicationTitle (citation : Citation) (item : ZItem) :
    (finalTitleCheck citation item).publicationTitle = item.publicationTitle := by
  by_cases h : item.title.isEmpty = true <;> simp [finalTitleCheck, h]

/-- The final empty-title fallback yields a non-empty title whenever the
citation text is non-empty. -/
theorem finalTitleCheck_title_ne_nil (citation : Citation) (item : ZItem)
    (h : citation.content ≠ []) :
    (finalTitleCheck citation item).title ≠ [] := by
  by_cases he : item.title.isEmpty = true
  · simp only [finalTitleCheck, he, if_true]
    intro hcontra
    rw [List.append_eq_nil, List.take_eq_nil_iff] at hcontra
    rcases hcontra.1 with h1 | h1
    · cases h1
    · exact h h1
  · simp only [finalTitleCheck, if_neg he]
    exact fun hnil => he (List.isEmpty_eq_true.mpr hnil)

/-! Claim theorems. -/

/-- C1 counterexample: the extra field is compared one-directionally, so a
stored extra value contained in the candidate text does not match even
though bidirectional containment would; and title matching is asymmetric
when one of the two titles is empty. -/
theorem c1_counterexample :
    (containsSub (lower (toChars "hello")) (lower (toChars "hello world")) = true
      ∧ citation_exists_in_zotero ⟨.ref_tag, toChars "hello world", []⟩
          [extraOnly (toChars "hello")] = false)
    ∧ (citation_exists_in_zotero ⟨.ref_tag, [], []⟩ [titleOnly (toChars "x")] = true
      ∧ citation_exists_in_zotero ⟨.ref_tag, toChars "x", []⟩ [titleOnly []] = false) := by
  refine ⟨⟨by decide, by decide⟩, by decide, by decide⟩

/-- C1 (amended): the matcher uses bidirectional substring containment on
title and abstractNote but only candidate-in-field containment on extra;
consequently matching of two non-empty titles is symmetric: matching A
against a store holding only title B equals matching B against a store
holding only title A. -/
theorem c1_amended_matcher (A B ec e : List Char) (k1 k2 k3 : CitKind) (u : List Char)
    (hA : A ≠ []) (hB : B ≠ []) :
    citation_exists_in_zotero ⟨k1, A, u⟩ [titleOnly B]
        = citation_exists_in_zotero ⟨k2, B, u⟩ [titleOnly A]
    ∧ citation_exists_in_zotero ⟨k3, ec, u⟩ [extraOnly e]
        = (!(lower e).isEmpty && containsSub (lower ec) (lower e)) := by
  constructor
  · obtain ⟨a, as, rfl⟩ := List.exists_cons_of_ne_nil hA
    obtain ⟨b, bs, rfl⟩ := List.exists_cons_of_ne_nil hB
    simp [citation_exists_in_zotero, titleOnly, ZoteroItem.getData, lower]
    exact Bool.or_comm _ _
  · simp [citation_exists_in_zotero, extraOnly, ZoteroItem.getData, lower]

/-- C1 witness. -/
theorem c1_amended_matcher_witness :
    citation_exists_in_zotero ⟨.ref_tag, toChars "ab", []⟩ [titleOnly (toChars "b")]
        = citation_exists_in_zotero ⟨.ref_tag, toChars "b", []⟩ [titleOnly (toChars "ab")]
    ∧ citation_exists_in_zotero ⟨.ref_tag, toChars "c", []⟩ [extraOnly (toChars "d")]
        = (!(lower (toChars "d")).isEmpty
            && containsSub (lower (toChars "c")) (lower (toChars "d"))) :=
  c1_amended_matcher (toChars "ab") (toChars "b") (toChars "c") (toChars "d")
    .ref_tag .ref_tag .ref_tag [] (by decide) (by decide)

/-- C10: a stored item whose title, abstractNote and extra are all empty or
absent never matches any candidate, because each field is compared only
when non-empty. -/
theorem c10_empty_fields_never_match (citation : Citation) (items : List ZoteroItem)
    (_hc : citation.content ≠ [])
    (h : ∀ it ∈ items, storedTitle it = [] ∧ storedAbstract it = [] ∧ storedExtra it = []) :
    citation_exists_in_zotero citation items = false := by
  unfold citation_exists_in_zotero
  rw [List.any_eq_false]
  intro it hit
  obtain ⟨h1, h2, h3⟩ := h it hit
  unfold storedTitle at h1
  unfold storedAbstract at h2
  unfold storedExtra at h3
  simp [h1, h2, h3, lower]

/-- C10 witness. -/
theorem c10_empty_fields_never_match_witness :
    citation_exists_in_zotero ⟨.ref_tag, toChars "x", []⟩
      [⟨some {}⟩, ⟨none⟩, ⟨some { title := some [], extra := some [] }⟩] = false :=
  c10_empty_fields_never_match _ _ (by decide) (by decide)

/-- C9: a failed fetch yields the empty citation sequence instead of
raising, and processing simply continues with the remaining pages. -/
theorem c9_fetch_failure_empty (e wiki_url : List Char)
    (rest : List (Except (List Char) (List Char))) :
    extract_citations_from_wiki (.error e) wiki_url = []
    ∧ runExtract wiki_url (.error e :: rest) = runExtract wiki_url rest := by
  exact ⟨rfl, by simp [runExtract, extract_citations_from_wiki]⟩

/-- C5: parsing the journal template yields the expected structured fields,
and canonicalizing the corresponding template citation keeps those fields
and derives the journal-article item type. -/
theorem c5_template_roundtrip (u : List Char) :
    parse_cite_template tplC5
        = { title := some (toChars "Foo")
            creators := some [⟨toChars "author", toChars "Jane Doe"⟩]
            date := some (toChars "2020")
            publicationTitle := some (toChars "Nature") }
    ∧ (create_zotero_item_from_citation ⟨.cite_template, tplC5, u⟩).title = toChars "Foo"
    ∧ (create_zotero_item_from_citation ⟨.cite_template, tplC5, u⟩).creators
        = [⟨toChars "author", toChars "Jane Doe"⟩]
    ∧ (create_zotero_item_from_citation ⟨.cite_template, tplC5, u⟩).date
        = some (toChars "2020")
    ∧ (create_zotero_item_from_citation ⟨.cite_template, tplC5, u⟩).publicationTitle
        = some (toChars "Nature")
    ∧ (create_zotero_item_from_citation ⟨.cite_template, tplC5, u⟩).itemType
        = toChars "journalArticle" :=
  ⟨by decide, rfl, rfl, rfl, rfl, rfl⟩

/-- The split loop on a trailing branch-free span just closes the final
segment of everything accumulated. -/
theorem splitLoop_final (s cur : List Char) (d : Int)
    (hs : ∀ c ∈ s, c ≠ '\x7b' ∧ c ≠ '\x7d' ∧ c ≠ '|') :
    splitLoop s cur d
      = if (strip (cur ++ s)).isEmpty then [] else [strip (cur ++ s)] := by
  have h := splitLoop_append_plain s hs [] cur d
  rw [List.append_nil] at h
  rw [h]
  simp [splitLoop]

/-- C6: a bar inside a nested balanced brace span never causes a field
split: the whole value, nested span included, stays one segment. -/
theorem c6_nested_bar_safe (x m y : List Char)
    (hx : ∀ c ∈ x, c ≠ '\x7b' ∧ c ≠ '\x7d' ∧ c ≠ '|')
    (hm : ∀ c ∈ m, c ≠ '\x7b' ∧ c ≠ '\x7d')
    (hy : ∀ c ∈ y, c ≠ '\x7b' ∧ c ≠ '\x7d' ∧ c ≠ '|') :
    splitParts (x ++ '\x7b' :: '\x7b' :: (m ++ '\x7d' :: '\x7d' :: y))
      = [strip (x ++ '\x7b' :: '\x7b' :: (m ++ '\x7d' :: '\x7d' :: y))] := by
  unfold splitParts
  rw [splitLoop_append_plain x hx, splitLoop_obr, splitLoop_obr,
      splitLoop_append_nested m hm _ _ _ (by decide),
      splitLoop_cbr, splitLoop_cbr,
      splitLoop_final y _ _ hy]
  simp only [List.nil_append, List.append_assoc, List.singleton_append, List.cons_append]
  have hmem : ('\x7b' : Char) ∈ x ++ '\x7b' :: '\x7b' :: (m ++ '\x7d' :: '\x7d' :: y) :=
    List.mem_append.mpr (Or.inr (List.mem_cons_self _ _))
  rw [if_neg (fun hc => strip_ne_nil hmem (by decide) (List.isEmpty_eq_true.mp hc))]

/-- C6 witness. -/
theorem c6_nested_bar_safe_witness :
    splitParts (toChars "title=a" ++ '\x7b' :: '\x7b' :: (toChars "b|c" ++ '\x7d' :: '\x7d' :: []))
      = [strip (toChars "title=a" ++ '\x7b' :: '\x7b' :: (toChars "b|c" ++ '\x7d' :: '\x7d' :: []))] :=
  c6_nested_bar_safe (toChars "title=a") (toChars "b|c") []
    (by decide) (by decide) (by decide)

/-- C7: canonicalization of any citation with non-empty text produces a
non-empty title, the final hundred-character fallback guaranteeing it. -/
theorem c7_title_nonempty (citation : Citation) (h : citation.content ≠ []) :
    (create_zotero_item_from_citation citation).title ≠ [] :=
  finalTitleCheck_title_ne_nil citation _ h

/-- C7 witness. -/
theorem c7_title_nonempty_witness :
    (create_zotero_item_from_citation ⟨.ref_tag, toChars "x", []⟩).title ≠ [] :=
  c7_title_nonempty ⟨.ref_tag, toChars "x", []⟩ (by decide)

set_option maxRecDepth 8000 in
/-- C2 counterexample: an external-link citation longer than two hundred
characters keeps its full label as the title, untruncated and without an
ellipsis, and a long cite template falls back to a bare two-hundred
character prefix with no ellipsis either. -/
theorem c2_counterexample :
    ((List.replicate 201 'a').length > 200
      ∧ (create_zotero_item_from_citation ⟨.external_link, List.replicate 201 'a', []⟩).title
          = List.replicate 201 'a'
      ∧ (create_zotero_item_from_citation ⟨.external_link, List.replicate 201 'a', []⟩).title
          ≠ (List.replicate 201 'a').take 200 ++ toChars "...")
    ∧ (tplLong.length > 200
      ∧ (create_zotero_item_from_citation ⟨.cite_template, tplLong, []⟩).title
          = tplLong.take 200
      ∧ (create_zotero_item_from_citation ⟨.cite_template, tplLong, []⟩).title
          ≠ tplLong.take 200 ++ toChars "...") := by
  refine ⟨⟨by decide, by decide, by decide⟩, by decide, by decide, by decide⟩

/-- C2 (amended): only inline-reference citations receive the exact
two-hundred-character-plus-ellipsis truncation: for a ref-tag citation
whose text exceeds two hundred characters, the title is exactly the first
two hundred characters followed by the three-character ellipsis marker. -/
theorem c2_amended_ref_truncation (citation : Citation) (hk : citation.ctype = .ref_tag)
    (h : citation.content.length > 200) :
    (create_zotero_item_from_citation citation).title
        = citation.content.take 200 ++ toChars "..."
    ∧ (citation.content.take 200).length = 200 := by
  obtain ⟨k, content, u⟩ := citation
  dsimp only at hk h ⊢
  subst hk
  have htitle : (canonicalizeByKind ⟨.ref_tag, content, u⟩).title
      = content.take 200 ++ (if content.length > 200 then toChars "..." else []) := rfl
  have hT : (canonicalizeByKind ⟨.ref_tag, content, u⟩).title
      = content.take 200 ++ toChars "..." := by
    rw [htitle, if_pos h]
  refine ⟨?_, ?_⟩
  · have hne : (canonicalizeByKind ⟨.ref_tag, content, u⟩).title.isEmpty ≠ true := by
      rw [hT]
      intro hcontra
      exact List.append_ne_nil_of_right_ne_nil _ (by decide)
        (List.isEmpty_eq_true.mp hcontra)
    unfold create_zotero_item_from_citation finalTitleCheck
    rw [if_neg hne, hT]
  · rw [List.length_take]
    omega

set_option maxRecDepth 8000 in
/-- C2 witness. -/
theorem c2_amended_ref_truncation_witness :
    (create_zotero_item_from_citation ⟨.ref_tag, List.replicate 201 'a', []⟩).title
        = (List.replicate 201 'a').take 200 ++ toChars "..."
    ∧ ((List.replicate 201 'a').take 200).length = 200 :=
  c2_amended_ref_truncation ⟨.ref_tag, List.replicate 201 'a', []⟩ rfl (by decide)

/-- C3 counterexample: scanning a balanced cite template that contains a
nested brace span yields only a span truncated at the nested span's closing
braces, not the full balanced template. -/
theorem c3_counterexample :
    extract_citations_from_wiki (.ok nestedTpl) []
        = [⟨.cite_template, truncatedTpl, []⟩]
    ∧ truncatedTpl ≠ nestedTpl := by
  exact ⟨by decide, by decide⟩

/-- C3 (amended): the template rule matches the cite marker, whitespace and
a run of characters other than a closing brace, terminated by the first
pair of closing braces regardless of nesting depth: every yielded span
contains no closing brace before its final two characters, so a template
with a nested span is yielded truncated, not in full. -/
theorem c3_amended_template_rule (fuel : Nat) (s mm : List Char)
    (h : mm ∈ scanCites fuel s) :
    ∃ c1 c2 c3 c4 run,
      mm = '\x7b' :: '\x7b' :: c1 :: c2 :: c3 :: c4 :: (run ++ ['\x7d', '\x7d'])
      ∧ (∀ x ∈ run, x ≠ '\x7d')
      ∧ lowEq c1 'c' = true ∧ lowEq c2 'i' = true ∧ lowEq c3 't' = true
      ∧ lowEq c4 'e' = true :=
  scanCites_shape fuel s mm h

/-- C3 witness. -/
theorem c3_amended_template_rule_witness :
    ∃ c1 c2 c3 c4 run,
      truncatedTpl = '\x7b' :: '\x7b' :: c1 :: c2 :: c3 :: c4 :: (run ++ ['\x7d', '\x7d'])
      ∧ (∀ x ∈ run, x ≠ '\x7d')
      ∧ lowEq c1 'c' = true ∧ lowEq c2 'i' = true ∧ lowEq c3 't' = true
      ∧ lowEq c4 'e' = true :=
  c3_amended_template_rule (nestedTpl.length + 1) nestedTpl truncatedTpl (by decide)

/-- C4 counterexample: a template with an empty journal value is typed as a
journal article even though the venue is present but empty, contradicting
the article-iff-non-empty-venue invariant. -/
theorem c4_counterexample :
    (create_zotero_item_from_citation ⟨.cite_template, tplEmptyVenue, []⟩).itemType
        = toChars "journalArticle"
    ∧ (create_zotero_item_from_citation ⟨.cite_template, tplEmptyVenue, []⟩).publicationTitle
        = some [] := by
  exact ⟨by decide, by decide⟩

/-- C4 (amended): for template citations the item type is journalArticle
exactly when the parse produced a publicationTitle key, empty-valued or
not; book exactly when no publicationTitle key but a publisher key was
parsed; and every non-template citation is typed webpage. -/
theorem c4_amended_itemType (citation : Citation) :
    (citation.ctype = .cite_template →
      (((create_zotero_item_from_citation citation).itemType = toChars "journalArticle")
          ↔ (parse_cite_template citation.content).publicationTitle.isSome = true)
      ∧ (((create_zotero_item_from_citation citation).itemType = toChars "book")
          ↔ ((parse_cite_template citation.content).publicationTitle.isSome = false
              ∧ (parse_cite_template citation.content).publisher.isSome = true)))
    ∧ (citation.ctype ≠ .cite_template →
        (create_zotero_item_from_citation citation).itemType = toChars "webpage") := by
  have hne1 : toChars "journalArticle" ≠ toChars "book" := by decide
  have hne2 : toChars "journalArticle" ≠ toChars "webpage" := by decide
  have hne3 : toChars "book" ≠ toChars "webpage" := by decide
  obtain ⟨k, content, u⟩ := citation
  rw [show (create_zotero_item_from_citation ⟨k, content, u⟩).itemType
        = (canonicalizeByKind ⟨k, content, u⟩).itemType from finalTitleCheck_itemType _ _]
  dsimp only
  cases k with
  | cite_template =>
    have hcan : (canonicalizeByKind ⟨.cite_template, content, u⟩).itemType
        = (if (parse_cite_template content).publicationTitle.isSome
             then toChars "journalArticle"
           else if (parse_cite_template content).publisher.isSome
             then toChars "book"
           else toChars "webpage") := by
      simp only [canonicalizeByKind]
      rw [apply_ite ZItem.itemType]
      rw [show ∀ z : ZItem, ∀ t : List Char, ({ z with title := t } : ZItem).itemType
            = z.itemType from fun _ _ => rfl]
      rw [ite_self, apply_ite ZItem.itemType, apply_ite ZItem.itemType]
      rfl
    rw [hcan]
    refine ⟨fun _ => ?_, fun hne => absurd rfl hne⟩
    cases hps : (parse_cite_template content).publicationTitle with
    | some v => simp [hne1, hne1.symm]
    | none =>
      cases hq : (parse_cite_template content).publisher with
      | some w => simp [hne1.symm]
      | none => simp [hne2.symm, hne3.symm]
  | ref_tag =>
    constructor
    · intro hcontra
      cases hcontra
    · intro _
      cases hay : matchAuthorYear content <;> simp [canonicalizeByKind, hay, baseItem]
  | external_link =>
    constructor
    · intro hcontra
      cases hcontra
    · intro _
      rfl

/-- C4 witness. -/
theorem c4_amended_itemType_witness :
    (create_zotero_item_from_citation ⟨.cite_template, tplC5, []⟩).itemType
        = toChars "journalArticle" :=
  ((c4_amended_itemType ⟨.cite_template, tplC5, []⟩).1 rfl).1.mpr (by decide)

/-- C8: every citation the scanner yields has non-empty text, every
inline-reference citation has cleaned text longer than ten characters, and
every external-link citation has a label longer than five characters. -/
theorem c8_noise_filtering (fetched : Except (List Char) (List Char))
    (wiki_url : List Char) (c : Citation)
    (h : c ∈ extract_citations_from_wiki fetched wiki_url) :
    c.content ≠ []
    ∧ (c.ctype = .ref_tag → c.content.length > 10)
    ∧ (c.ctype = .external_link → c.content.length > 5) := by
  match fetched with
  | .error e => cases h
  | .ok content =>
    simp only [extract_citations_from_wiki, List.mem_append, List.mem_filterMap,
      List.mem_map] at h
    rcases h with (h | h) | h
    · obtain ⟨mref, _, hf⟩ := h
      by_cases hcond : (strip (stripTags (mref.length + 1) mref) ≠ []
          ∧ (strip (stripTags (mref.length + 1) mref)).length > 10)
      · rw [if_pos hcond, Option.some_inj] at hf
        subst hf
        refine ⟨hcond.1, fun _ => hcond.2, ?_⟩
        intro hx
        cases hx
      · rw [if_neg hcond] at hf
        cases hf
    · obtain ⟨mc, hmc, hf⟩ := h
      obtain ⟨c1, c2, c3, c4, run, hshape, _⟩ := scanCites_shape _ _ _ hmc
      subst hf
      refine ⟨?_, ?_, ?_⟩
      · exact strip_ne_nil (hshape ▸ List.mem_cons_self _ _) (by decide)
      · intro hx
        cases hx
      · intro hx
        cases hx
    · obtain ⟨ml, _, hf⟩ := h
      by_cases hcond : (strip ml).length > 5
      · rw [if_pos hcond, Option.some_inj] at hf
        subst hf
        refine ⟨?_, ?_, fun _ => hcond⟩
        · show strip ml ≠ []
          exact List.ne_nil_of_length_pos (by omega)
        · intro hx
          cases hx
      · rw [if_neg hcond] at hf
        cases hf

/-- C8 witness. -/
theorem c8_noise_filtering_witness :
    (⟨.ref_tag, toChars "twelve chars ok", []⟩ : Citation).content ≠ []
    ∧ ((⟨.ref_tag, toChars "twelve chars ok", []⟩ : Citation).ctype = .ref_tag →
        (⟨.ref_tag, toChars "twelve chars ok", []⟩ : Citation).content.length > 10)
    ∧ ((⟨.ref_tag, toChars "twelve chars ok", []⟩ : Citation).ctype = .external_link →
        (⟨.ref_tag, toChars "twelve chars ok", []⟩ : Citation).content.length > 5) :=
  c8_noise_filtering (.ok refDoc) [] ⟨.ref_tag, toChars "twelve chars ok", []⟩ (by decide)

end WikiSync
